import Mathlib

/-!
Shallow embedding of the row-shaping pipeline of `src/CSVMunger.ts`
(repository rtholmes/csv-munge), together with theorems settling the
spec claims about it.

The shaping core is `CSVMunger.munge(shape, valuesToIgnore)`: for each
parsed CSV record it looks up each configured column, trims the raw
value, filters out empty and ignore-listed values, coerces the survivors
(`Number(...)` for `number` shapes, the string itself otherwise), and, if
any field survives, prepends a `csvRowNum` identity field whose value is
the number of rows accepted so far.

File I/O and CSV tokenizing are collaborator boundaries: the embedding
takes the already-parsed record sequence as an explicit argument.
-/

namespace CSVMunge

/-- The `kind` discriminator of a CSVShape: `"number" | "string"` in the
source. -/
inductive Kind where
  | number
  | str
  deriving DecidableEq, Repr

/-- A CSVShape (source: `type CSVShape` in CSVMunger.ts): the source
column header, the output field name, and the kind governing coercion. -/
structure CSVShape where
  csvColName : String
  outName : String
  kind : Kind
  deriving DecidableEq, Repr

/-- Runtime values of output fields: `number | string` in the source.
JavaScript `Number(...)` on non-numeric text yields `NaN`; we represent
that sentinel as a distinct constructor. -/
inductive Value where
  | str (s : String)
  | num (q : ℚ)
  | nan
  deriving DecidableEq, Repr

/-- A DataShape (source: `type DataShape`): one extracted, renamed,
coerced column value. -/
structure DataShape where
  name : String
  value : Value
  deriving DecidableEq, Repr

/-- A DataRow (source: `type DataRow = DataShape[]`). -/
abbrev DataRow := List DataShape

/-- A parsed CSV record as handed over by the csv-parse collaborator
with `columns: true`: a mapping from header name to raw cell string.
`row[c]` being `undefined` corresponds to `lookup` returning `none`. -/
abbrev Record := List (String × String)

/-- The CSVMunger class state: the two constructor arguments
(`inputCSV`, `outputFile`).  `outputFile` is only ever read by the
callers that serialize the result, never inside `munge`. -/
structure CSVMunger where
  inputCSV : String
  outputFile : String
  deriving DecidableEq, Repr

/-- ASCII whitespace recognizer for the JavaScript `trim()` model. -/
def isSpaceChar (c : Char) : Bool :=
  c == ' ' || c == '\t' || c == '\n' || c == '\r'

/-- Model of the JavaScript `String.prototype.trim()` primitive (a
platform primitive, not repository code): drop leading and trailing
whitespace characters. -/
def jsTrim (s : String) : String :=
  ⟨((s.data.dropWhile isSpaceChar).reverse.dropWhile isSpaceChar).reverse⟩

/-- ASCII-fragment model of the JavaScript `toLowerCase()` primitive on
one character. -/
def jsCharToLower (c : Char) : Char :=
  if c.toNat ≥ 65 ∧ c.toNat ≤ 90 then Char.ofNat (c.toNat + 32) else c

/-- Model of the JavaScript `String.prototype.toLowerCase()` primitive
(ASCII fragment). -/
def jsToLower (s : String) : String :=
  ⟨s.data.map jsCharToLower⟩

/-- Digits-to-natural accumulation for the decimal fragment of the
JavaScript `Number(...)` primitive. -/
def digitsToNat (cs : List Char) : Nat :=
  cs.foldl (fun a c => a * 10 + (c.toNat - 48)) 0

/-- Sign application for the `Number(...)` model. -/
def applySign (neg : Bool) (q : ℚ) : ℚ :=
  if neg then -q else q

/-- Model of the JavaScript `Number(...)` coercion applied to an
already-trimmed, non-empty string (a platform primitive, not repository
code): an optional sign followed by decimal digits with at most one
decimal point parses to a rational; anything else yields `none`,
standing for the `NaN` sentinel.  `Number` never throws. -/
def jsToNumber (s : String) : Option ℚ :=
  let signed : Bool × List Char :=
    match s.data with
    | '-' :: r => (true, r)
    | '+' :: r => (false, r)
    | cs => (false, cs)
  match (signed.2).splitOn '.' with
  | [ip] =>
    if ip ≠ [] ∧ ip.all Char.isDigit then
      some (applySign signed.1 (digitsToNat ip : ℚ))
    else none
  | [ip, fp] =>
    if (ip ≠ [] ∨ fp ≠ []) ∧ ip.all Char.isDigit ∧ fp.all Char.isDigit then
      some (applySign signed.1
        ((digitsToNat ip : ℚ) + (digitsToNat fp : ℚ) / ((10 : ℚ) ^ fp.length)))
    else none
  | _ => none

/-- Coercion step of the shaping loop (CSVMunger.ts lines 77-81): a
`number` shape stores `Number(rawValue)` (with `NaN` for non-numeric
text), a `string` shape stores the raw value as-is. -/
def coerce (kind : Kind) (rawValue : String) : Value :=
  match kind with
  | Kind.number =>
    match jsToNumber rawValue with
    | some q => Value.num q
    | none => Value.nan
  | Kind.str => Value.str rawValue

/-- Body of the inner per-shape loop of `munge` (CSVMunger.ts lines
63-85) for one shape against one record.  A missing column is skipped
(log only); otherwise the raw value is trimmed (the source also calls
`rawValue.replaceAll("\n", " ")` on line 72 but discards its result, so
embedded newlines survive), and a field is produced exactly when the
trimmed value is non-empty and its `toLowerCase()` form is not an
element of `valuesToIgnore`. -/
def shapeCell (valuesToIgnore : List String) (row : Record) (s : CSVShape) : Option DataShape :=
  match row.lookup s.csvColName with
  | none => none
  | some v =>
    let rawValue := jsTrim v
    if rawValue.length > 0 ∧ valuesToIgnore.contains (jsToLower rawValue) = false then
      some { name := s.outName, value := coerce s.kind rawValue }
    else none

/-- The inner loop of `munge` over all shapes for one record: the
working `dataRow` field list, in shape-configuration order. -/
def mungeRow (shape : List CSVShape) (valuesToIgnore : List String) (row : Record) : DataRow :=
  shape.filterMap (shapeCell valuesToIgnore row)

/-- The identity DataShape prepended to an accepted row (CSVMunger.ts
line 90): name `csvRowNum`, value the number of rows accepted so far. -/
def idShape (n : Nat) : DataShape :=
  { name := "csvRowNum", value := Value.num n }

/-- The outer loop of `munge` (CSVMunger.ts lines 58-94), with `n` the
current length of the accumulated result `ret`: a record whose
`dataRow` is non-empty gets `idShape n` unshifted and is pushed;
otherwise nothing is added and the counter does not advance. -/
def mungeRows (shape : List CSVShape) (valuesToIgnore : List String) :
    List Record → Nat → List DataRow
  | [], _ => []
  | row :: rest, n =>
    let dataRow := mungeRow shape valuesToIgnore row
    if dataRow.length > 0 then
      (idShape n :: dataRow) :: mungeRows shape valuesToIgnore rest (n + 1)
    else
      mungeRows shape valuesToIgnore rest n

/-- `CSVMunger.munge(shape, valuesToIgnore)` with the parsed record
sequence made explicit: the source obtains `rawCSV` from
`this.inputCSV` via the csv-parse collaborator and then runs the pure
shaping loop; `this.outputFile` is not consulted. -/
def munge (_m : CSVMunger) (rawCSV : List Record) (shape : List CSVShape)
    (valuesToIgnore : List String) : List DataRow :=
  mungeRows shape valuesToIgnore rawCSV 0

end CSVMunge

namespace CSVMunge

/-- Unfolding equation for `shapeCell` when the configured column is
missing from the record. -/
theorem shapeCell_of_lookup_none {valuesToIgnore : List String} {row : Record}
    {s : CSVShape} (h : row.lookup s.csvColName = none) :
    shapeCell valuesToIgnore row s = none := by
  unfold shapeCell
  rw [h]

/-- Unfolding equation for `shapeCell` when the configured column is
present with raw value `v`. -/
theorem shapeCell_of_lookup_some {valuesToIgnore : List String} {row : Record}
    {s : CSVShape} {v : String} (h : row.lookup s.csvColName = some v) :
    shapeCell valuesToIgnore row s =
      (if (jsTrim v).length > 0 ∧ valuesToIgnore.contains (jsToLower (jsTrim v)) = false then
        some { name := s.outName, value := coerce s.kind (jsTrim v) }
      else none) := by
  unfold shapeCell
  rw [h]

/-- Inversion principle for a produced field: a `some` result of
`shapeCell` comes from a present column whose trimmed value is
non-empty and not ignore-listed, renamed to the shape's output name. -/
theorem shapeCell_eq_some {valuesToIgnore : List String} {row : Record} {s : CSVShape}
    {f : DataShape} (h : shapeCell valuesToIgnore row s = some f) :
    ∃ v, row.lookup s.csvColName = some v ∧ (jsTrim v).length > 0 ∧
      valuesToIgnore.contains (jsToLower (jsTrim v)) = false ∧
      f = { name := s.outName, value := coerce s.kind (jsTrim v) } := by
  cases heq : row.lookup s.csvColName with
  | none => rw [shapeCell_of_lookup_none heq] at h; exact absurd h (by simp)
  | some v =>
    rw [shapeCell_of_lookup_some heq] at h
    by_cases hc : (jsTrim v).length > 0 ∧ valuesToIgnore.contains (jsToLower (jsTrim v)) = false
    · rw [if_pos hc] at h
      exact ⟨v, rfl, hc.1, hc.2, (Option.some.inj h).symm⟩
    · rw [if_neg hc] at h
      exact absurd h (by simp)

/-- Every row in the output of the outer loop is an accepted record's
field list with an identity shape unshifted in front. -/
theorem mem_mungeRows {shape : List CSVShape} {ign : List String} :
    ∀ {rows : List Record} {n : Nat} {dr : DataRow},
    dr ∈ mungeRows shape ign rows n →
    ∃ row k, row ∈ rows ∧ 0 < (mungeRow shape ign row).length ∧
      dr = idShape k :: mungeRow shape ign row := by
  intro rows
  induction rows with
  | nil => intro n dr h; simp [mungeRows] at h
  | cons row rest ih =>
    intro n dr h
    simp only [mungeRows] at h
    by_cases hc : (mungeRow shape ign row).length > 0
    · rw [if_pos hc] at h
      rcases List.mem_cons.mp h with h1 | h2
      · exact ⟨row, n, List.mem_cons_self _ _, hc, h1⟩
      · obtain ⟨row', k, hmem, hlen, hdr⟩ := ih h2
        exact ⟨row', k, List.mem_cons_of_mem _ hmem, hlen, hdr⟩
    · rw [if_neg hc] at h
      obtain ⟨row', k, hmem, hlen, hdr⟩ := ih h
      exact ⟨row', k, List.mem_cons_of_mem _ hmem, hlen, hdr⟩

/-- The output names of one record's field list follow the shape
configuration order (they form a sublist of the configured output
names). -/
theorem mungeRow_names_sublist (shape : List CSVShape) (ign : List String) (row : Record) :
    ((mungeRow shape ign row).map DataShape.name).Sublist (shape.map CSVShape.outName) := by
  induction shape with
  | nil => simp [mungeRow]
  | cons s rest ih =>
    cases h : shapeCell ign row s with
    | none =>
      simpa [mungeRow, List.filterMap_cons, h] using ih.cons s.outName
    | some f =>
      have hname : f.name = s.outName := by
        obtain ⟨v, -, -, -, rfl⟩ := shapeCell_eq_some h
        rfl
      simpa [mungeRow, List.filterMap_cons, h, hname] using ih.cons₂ s.outName

/-- The identity fields of the outer loop's output, read in order, are
the consecutive naturals starting at the accumulator value. -/
theorem mungeRows_ids (shape : List CSVShape) (ign : List String) :
    ∀ (rows : List Record) (n : Nat),
    (mungeRows shape ign rows n).map List.head? =
      (List.range' n (mungeRows shape ign rows n).length).map (fun k => some (idShape k)) := by
  intro rows
  induction rows with
  | nil => intro n; simp [mungeRows]
  | cons row rest ih =>
    intro n
    simp only [mungeRows]
    by_cases hc : (mungeRow shape ign row).length > 0
    · rw [if_pos hc, List.length_cons, List.range'_succ]
      simp [ih (n + 1)]
    · rw [if_neg hc]
      exact ih n

/-- A record with a column missing and an otherwise-identical record
with that column present-but-empty shape every cell identically. -/
theorem shapeCell_missing_eq_empty {ign : List String} {s : CSVShape} {col : String}
    {row1 row2 : Record} (h1 : row1.lookup col = none) (h2 : row2.lookup col = some "")
    (hagree : ∀ c, c ≠ col → row1.lookup c = row2.lookup c) :
    shapeCell ign row1 s = shapeCell ign row2 s := by
  by_cases hc : s.csvColName = col
  · rw [shapeCell_of_lookup_none (hc ▸ h1), shapeCell_of_lookup_some (hc ▸ h2)]
    rw [if_neg]
    intro hcond
    exact absurd hcond.1 (by decide)
  · have hagr := hagree _ hc
    unfold shapeCell
    rw [hagr]

/-- Replacing one record by another with the same per-record field list
leaves the whole output unchanged. -/
theorem mungeRows_replace {shape : List CSVShape} {ign : List String} {row1 row2 : Record}
    (hrow : mungeRow shape ign row1 = mungeRow shape ign row2) :
    ∀ (pre post : List Record) (n : Nat),
    mungeRows shape ign (pre ++ row1 :: post) n = mungeRows shape ign (pre ++ row2 :: post) n := by
  intro pre
  induction pre with
  | nil =>
    intro post n
    simp only [List.nil_append, mungeRows, hrow]
  | cons p rest ih =>
    intro post n
    simp only [List.cons_append, mungeRows, List.append_eq]
    by_cases hc : (mungeRow shape ign p).length > 0
    · rw [if_pos hc, if_pos hc, ih post (n + 1)]
    · rw [if_neg hc, if_neg hc, ih post n]

/-- Coercion never turns a non-empty raw string into the empty output
string: a `number` shape yields a numeric or `NaN` value, a `string`
shape yields the raw string itself. -/
theorem coerce_str_inv {k : Kind} {raw t : String} (h : coerce k raw = Value.str t) :
    t = raw := by
  cases k with
  | number =>
    unfold coerce at h
    cases heq : jsToNumber raw <;> rw [heq] at h <;> simp at h
  | str =>
    exact (Value.str.inj h).symm

/-- A string of positive length is not the empty string. -/
theorem ne_empty_of_length_pos {s : String} (h : s.length > 0) : s ≠ "" := by
  intro he
  subst he
  exact absurd h (by decide)

/-- C1: the claim fails on the code. `rawValue.replaceAll("\n", " ")` at
CSVMunger.ts line 72 discards its result (JavaScript strings are
immutable), so a kept text value retains its embedded newline after
trimming: the record `{Q3: "a\nb"}` produces an output row whose kept
value still contains the newline character. -/
theorem c1_newline_survives :
    munge { inputCSV := "in.csv", outputFile := "out.json" }
        [[("Q3", "a\nb")]]
        [{ csvColName := "Q3", outName := "IU", kind := Kind.str }] [] =
      [[idShape 0, { name := "IU", value := Value.str "a\nb" }]] ∧
    '\n' ∈ "a\nb".data := by
  decide

/-- C2 counterexample: the trimmed value `"no"` matches the ignore-list
entry `"No"` case-insensitively, yet a field IS produced, because the
code lowercases only the record value and compares it verbatim against
the entries (`valuesToIgnore.includes(rawValue.toLowerCase())`,
CSVMunger.ts line 76).  The claim's "regardless of the original casing
of either v or e" is false for entries with uppercase letters. -/
theorem c2_uppercase_entry_not_matched :
    jsToLower (jsTrim "no") = jsToLower (jsTrim "No") ∧
    shapeCell ["No"] [("Col1", "no")]
        { csvColName := "Col1", outName := "Data1", kind := Kind.str } =
      some { name := "Data1", value := Value.str "no" } := by
  decide

/-- C2 amended: a present cell is dropped exactly when its trimmed value
is empty or its lowercased trimmed form is literally an element of the
ignore list.  Matching is insensitive to the record value's casing, but
an entry is compared verbatim, so only lowercase entries ever match;
substring containment never drops a value. -/
theorem c2_ignore_drop_iff (ign : List String) (row : Record) (s : CSVShape) (v : String)
    (h : row.lookup s.csvColName = some v) :
    shapeCell ign row s = none ↔
      ((jsTrim v).length = 0 ∨ ign.contains (jsToLower (jsTrim v)) = true) := by
  rw [shapeCell_of_lookup_some h]
  by_cases hc : (jsTrim v).length > 0 ∧ ign.contains (jsToLower (jsTrim v)) = false
  · rw [if_pos hc]
    constructor
    · intro hso
      exact absurd hso (by simp)
    · intro hr
      rcases hr with hr | hr
      · omega
      · rw [hc.2] at hr
        exact absurd hr (by simp)
  · rw [if_neg hc]
    constructor
    · intro _
      by_cases hlen : (jsTrim v).length > 0
      · right
        rcases Bool.eq_false_or_eq_true (ign.contains (jsToLower (jsTrim v))) with hb | hb
        · exact hb
        · exact absurd ⟨hlen, hb⟩ hc
      · left
        omega
    · intro _
      rfl

/-- C2 witness: the shared ignore list entry `"no"` drops the cell
`"No "` (trim and case-insensitivity on the value's side). -/
theorem c2_ignore_drop_iff_witness :
    List.lookup "Q3" ([("Q3", "No ")] : Record) = some "No " ∧
    (shapeCell ["no"] [("Q3", "No ")]
        { csvColName := "Q3", outName := "IU", kind := Kind.str } = none ↔
      ((jsTrim "No ").length = 0 ∨ List.contains ["no"] (jsToLower (jsTrim "No ")) = true)) :=
  ⟨by decide, c2_ignore_drop_iff ["no"] [("Q3", "No ")]
    { csvColName := "Q3", outName := "IU", kind := Kind.str } "No " (by decide)⟩

/-- C3 counterexample: the synthetic identity field's name in the code
is `"csvRowNum"` (CSVMunger.ts line 90), not `"rowId"` as the claim
states: at a concrete input the first field of the first row is the
`csvRowNum` shape, whose name differs from `"rowId"`. -/
theorem c3_first_field_not_rowId :
    (munge { inputCSV := "in.csv", outputFile := "out.json" } [[("Q3", "x")]]
        [{ csvColName := "Q3", outName := "IU", kind := Kind.str }] []).head?.bind List.head? =
      some { name := "csvRowNum", value := Value.num 0 } ∧
    ({ name := "csvRowNum", value := Value.num 0 } : DataShape).name ≠ "rowId" := by
  decide

/-- C3 amended: every emitted row is the synthetic identity field
`{name := "csvRowNum", value := sequential integer}` followed by the
shape-derived fields of one input record, whose names appear in the
same order as the ColumnShape configuration. -/
theorem c3_row_structure (m : CSVMunger) (rawCSV : List Record) (shape : List CSVShape)
    (ign : List String) (dr : DataRow) (h : dr ∈ munge m rawCSV shape ign) :
    ∃ k row, row ∈ rawCSV ∧
      dr = { name := "csvRowNum", value := Value.num k } :: mungeRow shape ign row ∧
      ((mungeRow shape ign row).map DataShape.name).Sublist (shape.map CSVShape.outName) := by
  obtain ⟨row, k, hmem, _, hdr⟩ := mem_mungeRows h
  exact ⟨k, row, hmem, hdr, mungeRow_names_sublist shape ign row⟩

/-- C3 witness: the structure theorem applied to a concrete run. -/
theorem c3_row_structure_witness :
    ([idShape 0, { name := "IU", value := Value.str "x" }] ∈
      munge { inputCSV := "in.csv", outputFile := "out.json" } [[("Q3", "x")]]
        [{ csvColName := "Q3", outName := "IU", kind := Kind.str }] []) ∧
    ∃ k row, row ∈ [[("Q3", "x")]] ∧
      ([idShape 0, { name := "IU", value := Value.str "x" }] : DataRow) =
        { name := "csvRowNum", value := Value.num k } ::
          mungeRow [{ csvColName := "Q3", outName := "IU", kind := Kind.str }] [] row ∧
      ((mungeRow [{ csvColName := "Q3", outName := "IU", kind := Kind.str }] [] row).map
          DataShape.name).Sublist
        ([{ csvColName := "Q3", outName := "IU", kind := Kind.str }].map CSVShape.outName) :=
  ⟨by decide, c3_row_structure { inputCSV := "in.csv", outputFile := "out.json" }
    [[("Q3", "x")]] [{ csvColName := "Q3", outName := "IU", kind := Kind.str }] []
    [idShape 0, { name := "IU", value := Value.str "x" }] (by decide)⟩

/-- C4: the identity values of the kept rows, read in output order, are
exactly 0, 1, 2, ...: the head of each emitted row is the identity
shape carrying the row's 0-based index into the output sequence, so ids
are dense and gap-free however many input records were dropped. -/
theorem c4_ids_sequential (m : CSVMunger) (rawCSV : List Record) (shape : List CSVShape)
    (ign : List String) :
    (munge m rawCSV shape ign).map List.head? =
      (List.range (munge m rawCSV shape ign).length).map (fun k => some (idShape k)) := by
  unfold munge
  rw [List.range_eq_range']
  exact mungeRows_ids shape ign rawCSV 0

/-- C5 counterexample: on the claim's concrete scenario the output rows
do not carry an identity field named `"rowId"`: the code names it
`"csvRowNum"`, so the claimed exact output is not the produced one. -/
theorem c5_scenario_not_rowId :
    munge { inputCSV := "in.csv", outputFile := "out.json" }
        [[("Q3", " Hello "), ("Q4", "No")], [("Q3", ""), ("Q4", "")],
         [("Q3", "Yes but unsure"), ("Q4", "no")]]
        [{ csvColName := "Q3", outName := "IU", kind := Kind.str },
         { csvColName := "Q4", outName := "AIC", kind := Kind.str }] ["no"] ≠
      [[{ name := "rowId", value := Value.num 0 },
        { name := "IU", value := Value.str "Hello" }],
       [{ name := "rowId", value := Value.num 1 },
        { name := "IU", value := Value.str "Yes but unsure" }]] := by
  decide

/-- C5 amended: the concrete scenario produces exactly the two claimed
rows, with the identity field named `"csvRowNum"` (the code's name,
CSVMunger.ts line 90) instead of `"rowId"`; the middle record produces
no row at all. -/
theorem c5_scenario_output :
    munge { inputCSV := "in.csv", outputFile := "out.json" }
        [[("Q3", " Hello "), ("Q4", "No")], [("Q3", ""), ("Q4", "")],
         [("Q3", "Yes but unsure"), ("Q4", "no")]]
        [{ csvColName := "Q3", outName := "IU", kind := Kind.str },
         { csvColName := "Q4", outName := "AIC", kind := Kind.str }] ["no"] =
      [[{ name := "csvRowNum", value := Value.num 0 },
        { name := "IU", value := Value.str "Hello" }],
       [{ name := "csvRowNum", value := Value.num 1 },
        { name := "IU", value := Value.str "Yes but unsure" }]] := by
  decide

/-- C6: a record with a configured column entirely missing produces
exactly the same output (fields, row-drop decision, identity values) as
an otherwise-identical record with that column present but empty, in
any surrounding record sequence; the embedding is a total function, so
the missing-column case never raises a thrown failure. -/
theorem c6_missing_column_eq_empty (m : CSVMunger) (shape : List CSVShape) (ign : List String)
    (col : String) (row1 row2 : Record) (pre post : List Record)
    (h1 : row1.lookup col = none) (h2 : row2.lookup col = some "")
    (hagree : ∀ c, c ≠ col → row1.lookup c = row2.lookup c) :
    munge m (pre ++ row1 :: post) shape ign = munge m (pre ++ row2 :: post) shape ign := by
  have hrow : mungeRow shape ign row1 = mungeRow shape ign row2 :=
    List.filterMap_congr (fun s _ => shapeCell_missing_eq_empty h1 h2 hagree)
  exact mungeRows_replace hrow pre post 0

/-- C6 witness: a record lacking column `"B"` versus one carrying
`"B"` with the empty value, processed with a shape for `"B"`. -/
theorem c6_missing_column_eq_empty_witness :
    (List.lookup "B" ([("A", "x")] : Record) = none) ∧
    (List.lookup "B" ([("A", "x"), ("B", "")] : Record) = some "") ∧
    (∀ c : String, c ≠ "B" →
      List.lookup c ([("A", "x")] : Record) = List.lookup c ([("A", "x"), ("B", "")] : Record)) ∧
    munge { inputCSV := "i.csv", outputFile := "o.json" }
        ([] ++ ([("A", "x")] : Record) :: [])
        [{ csvColName := "A", outName := "OutA", kind := Kind.str },
         { csvColName := "B", outName := "OutB", kind := Kind.str }] [] =
      munge { inputCSV := "i.csv", outputFile := "o.json" }
        ([] ++ ([("A", "x"), ("B", "")] : Record) :: [])
        [{ csvColName := "A", outName := "OutA", kind := Kind.str },
         { csvColName := "B", outName := "OutB", kind := Kind.str }] [] := by
  have hagree : ∀ c : String, c ≠ "B" →
      List.lookup c ([("A", "x")] : Record) = List.lookup c ([("A", "x"), ("B", "")] : Record) := by
    intro c hc
    have hb : (c == "B") = false := beq_eq_false_iff_ne.mpr hc
    cases hA : c == "A" <;> simp [List.lookup, hA, hb]
  exact ⟨by decide, by decide, hagree,
    c6_missing_column_eq_empty { inputCSV := "i.csv", outputFile := "o.json" }
      [{ csvColName := "A", outName := "OutA", kind := Kind.str },
       { csvColName := "B", outName := "OutB", kind := Kind.str }] [] "B"
      [("A", "x")] [("A", "x"), ("B", "")] [] [] (by decide) (by decide) hagree⟩

/-- C7: a present cell whose value is empty after trimming contributes
no field; every emitted row has the identity field plus at least one
shape-derived field (rows with nothing surviving are never
materialized); and no field of any emitted row carries the empty string
as its value. -/
theorem c7_no_empty_values (m : CSVMunger) (rawCSV : List Record) (shape : List CSVShape)
    (ign : List String) :
    (∀ (s : CSVShape) (row : Record) (v : String),
        row.lookup s.csvColName = some v → jsTrim v = "" → shapeCell ign row s = none) ∧
    ∀ dr ∈ munge m rawCSV shape ign,
      2 ≤ dr.length ∧ ∀ f ∈ dr, ∀ t, f.value = Value.str t → t ≠ "" := by
  constructor
  · intro s row v hv htrim
    rw [shapeCell_of_lookup_some hv, htrim, if_neg]
    intro hcond
    exact absurd hcond.1 (by decide)
  · intro dr hdr
    obtain ⟨row, k, hmem, hlen, rfl⟩ := mem_mungeRows hdr
    refine ⟨by simp only [List.length_cons]; omega, ?_⟩
    intro f hf t hval
    rcases List.mem_cons.mp hf with rfl | hf'
    · exact absurd hval (by simp [idShape])
    · obtain ⟨s, _, hcell⟩ := List.mem_filterMap.mp (by simpa [mungeRow] using hf')
      obtain ⟨v, _, hlen2, _, rfl⟩ := shapeCell_eq_some hcell
      have ht : t = jsTrim v := coerce_str_inv hval
      rw [ht]
      exact ne_empty_of_length_pos hlen2

/-- C8: numeric coercion is total and non-throwing: a kept cell `"12"`
under a `number` shape yields the numeric value 12, a kept non-numeric
cell `"twelve"` yields the `NaN` sentinel value, and for every raw
string the coercion yields either the sentinel or a numeric value, so
one malformed cell never aborts the batch. -/
theorem c8_number_coercion_total :
    shapeCell [] [("G", "12")]
        { csvColName := "G", outName := "Grade", kind := Kind.number } =
      some { name := "Grade", value := Value.num 12 } ∧
    shapeCell [] [("G", "twelve")]
        { csvColName := "G", outName := "Grade", kind := Kind.number } =
      some { name := "Grade", value := Value.nan } ∧
    ∀ raw : String, coerce Kind.number raw = Value.nan ∨
      ∃ q : ℚ, coerce Kind.number raw = Value.num q := by
  refine ⟨by decide, by decide, ?_⟩
  intro raw
  unfold coerce
  cases h : jsToNumber raw with
  | none => left; rfl
  | some q => right; exact ⟨q, rfl⟩

/-- C9: noninterference of the output path: for a fixed parsed record
sequence, shapes, and ignore list, `munge` returns the identical row
sequence for any two values of the `outputFile` constructor argument —
the field is never consulted during shaping. -/
theorem c9_outputFile_noninterference (inF out1 out2 : String) (rawCSV : List Record)
    (shape : List CSVShape) (ign : List String) :
    munge { inputCSV := inF, outputFile := out1 } rawCSV shape ign =
      munge { inputCSV := inF, outputFile := out2 } rawCSV shape ign := rfl

/-- C10: with an empty shapes configuration, every record yields zero
fields, so no row is ever materialized: `munge` returns the empty row
sequence for every input record sequence. -/
theorem c10_empty_shapes (m : CSVMunger) (rawCSV : List Record) (ign : List String) :
    munge m rawCSV [] ign = [] := by
  unfold munge
  induction rawCSV with
  | nil => rfl
  | cons row rest ih =>
    simp only [mungeRows, mungeRow, List.filterMap_nil, List.length_nil]
    rw [if_neg (by decide)]
    exact ih
